import Mathlib

set_option maxRecDepth 8000

/-!
Verification of the Smart-Clamp ESP32 firmware sketch
(`SmartClamp_ESP32_Firmware.ino`).

The sketch keeps four module-level variables (`clampId`, `clampCity`,
`batteryLevel`, `clampStatus`), connects to Wi-Fi with a flat poll loop
(`connectToWiFi`), and then, forever in `loop()`, drains the simulated
battery by one step and calls `sendStatusUpdate()`, which — when the link
is up — serializes the four fields to JSON with ArduinoJson and issues one
HTTP POST, logging the outcome to the serial console.

The embedding below models:
 * the four globals as a `ClampState` record (field names from the source);
 * the battery-drain step of `loop()` as `tick`;
 * ArduinoJson's `StaticJsonDocument` as an ordered association list of
   `JsonVal`s, `serializeJson` as a renderer with standard string escaping,
   together with a parser `parseJsonString` used to state the round-trip
   property;
 * `sendStatusUpdate` as a pure function from the connectivity flag, an
   abstract HTTP transport (`post : HttpRequest → Int × String`, the
   response code and body), and the state, to the (unchanged) state plus a
   trace of issued requests and serial-log lines;
 * one `loop()` iteration as `loop`, and the state after `n` iterations
   (under arbitrary per-cycle connectivity and transport outcomes) as
   `stateAfter`;
 * `connectToWiFi` as a fuel-indexed poll of the link predicate, returning
   the list of `delay` durations it performed before the link came up
   (`none` = still polling after `fuel` checks; there is no error value,
   matching the source, which can only loop or fall through).
-/

namespace SmartClamp

/-! ### JSON values and rendering (ArduinoJson model) -/

/-- A JSON value as used by the sketch's document: a string or an integer. -/
inductive JsonVal where
  | JStr : List Char → JsonVal
  | JInt : Int → JsonVal
deriving DecidableEq

/-- The opening-brace character, written by code point. -/
def lbraceChar : Char := Char.ofNat 123

/-- The closing-brace character, written by code point. -/
def rbraceChar : Char := Char.ofNat 125

/-- The double-quote character. -/
def quoteChar : Char := '"'

/-- The backslash character. -/
def backslashChar : Char := '\\'

/-- The colon character. -/
def colonChar : Char := ':'

/-- The comma character. -/
def commaChar : Char := ','

/-- The minus-sign character. -/
def dashChar : Char := '-'

/-- Decimal-digit test on a character. -/
def isDig (c : Char) : Bool := decide (48 ≤ c.toNat) && decide (c.toNat ≤ 57)

/-- Numeric value of a decimal-digit character. -/
def toVal (c : Char) : Nat := c.toNat - 48

/-- The decimal-digit character for `d < 10`. -/
def digitChar (d : Nat) : Char := Char.ofNat (48 + d)

/-- Decimal rendering of a natural number, fuel-indexed so that recursion is
structural (any `fuel > n` gives the digits of `n`). -/
def natToCharsAux : Nat → Nat → List Char
  | 0, _ => []
  | fuel + 1, n =>
    if n < 10 then [digitChar n]
    else natToCharsAux fuel (n / 10) ++ [digitChar (n % 10)]

/-- Decimal rendering of a natural number. -/
def natToChars (n : Nat) : List Char := natToCharsAux (n + 1) n

/-- Decimal rendering of an integer (minus sign for negatives). -/
def intToChars (i : Int) : List Char :=
  if i < 0 then dashChar :: natToChars (-i).toNat else natToChars i.toNat

/-- Decimal rendering of an integer as a `String` (Arduino `String(int)`). -/
def intToString (i : Int) : String := String.mk (intToChars i)

/-- JSON escaping of one character: quote, backslash, and the named control
characters get a backslash escape; everything else is passed through. -/
def escapeChar (c : Char) : List Char :=
  if c = quoteChar then [backslashChar, quoteChar]
  else if c = backslashChar then [backslashChar, backslashChar]
  else if c = Char.ofNat 8 then [backslashChar, 'b']
  else if c = Char.ofNat 12 then [backslashChar, 'f']
  else if c = Char.ofNat 10 then [backslashChar, 'n']
  else if c = Char.ofNat 13 then [backslashChar, 'r']
  else if c = Char.ofNat 9 then [backslashChar, 't']
  else [c]

/-- JSON escaping of a character list. -/
def escapeList : List Char → List Char
  | [] => []
  | c :: cs => escapeChar c ++ escapeList cs

/-- Render one JSON value. -/
def serializeVal : JsonVal → List Char
  | JsonVal.JStr s => quoteChar :: (escapeList s ++ [quoteChar])
  | JsonVal.JInt i => intToChars i

/-- Render one object member: quoted key, colon, value. -/
def serializeMember (m : List Char × JsonVal) : List Char :=
  quoteChar :: (escapeList m.1 ++ quoteChar :: colonChar :: serializeVal m.2)

/-- Render the members of an object, comma-separated, without braces. -/
def serializeMembersBody : List (List Char × JsonVal) → List Char
  | [] => []
  | [m] => serializeMember m
  | m :: ms => serializeMember m ++ commaChar :: serializeMembersBody ms

/-- Render a whole JSON object. -/
def serializeObj (ms : List (List Char × JsonVal)) : List Char :=
  lbraceChar :: serializeMembersBody ms ++ [rbraceChar]

/-- ArduinoJson's `serializeJson(doc, out)`: render the document to a string. -/
def serializeJson (ms : List (List Char × JsonVal)) : String :=
  String.mk (serializeObj ms)

/-! ### JSON parsing (used to state the round-trip property) -/

/-- Inverse of the named escapes (lenient on anything else). -/
def unescapeChar (e : Char) : Char :=
  if e = 'b' then Char.ofNat 8
  else if e = 'f' then Char.ofNat 12
  else if e = 'n' then Char.ofNat 10
  else if e = 'r' then Char.ofNat 13
  else if e = 't' then Char.ofNat 9
  else e

/-- Parse a string body after the opening quote, up to the closing quote,
undoing escapes; the flag records whether the previous character was an
unconsumed backslash. Returns the string and the remaining input. -/
def parseStrAux : Bool → List Char → Option (List Char × List Char)
  | true, [] => none
  | true, e :: rest =>
    (parseStrAux false rest).map (fun p => (unescapeChar e :: p.1, p.2))
  | false, [] => none
  | false, c :: rest =>
    if c = quoteChar then some ([], rest)
    else if c = backslashChar then parseStrAux true rest
    else (parseStrAux false rest).map (fun p => (c :: p.1, p.2))

/-- Parse a string body after the opening quote. -/
def parseStringBody (cs : List Char) : Option (List Char × List Char) :=
  parseStrAux false cs

/-- One digit-accumulation step. -/
def digStep (a : Nat) (c : Char) : Nat := a * 10 + toVal c

/-- Consume a (possibly empty) run of digits, accumulating their value. -/
def parseDigits : List Char → Nat → Nat × List Char
  | [], acc => (acc, [])
  | c :: rest, acc =>
    if isDig c then parseDigits rest (digStep acc c) else (acc, c :: rest)

/-- Parse a natural number (at least one digit required). -/
def parseNat : List Char → Option (Nat × List Char)
  | [] => none
  | c :: rest => if isDig c then some (parseDigits rest (toVal c)) else none

/-- Parse one JSON value of the document's grammar: a string or an integer. -/
def parseValue : List Char → Option (JsonVal × List Char)
  | [] => none
  | c :: rest =>
    if c = quoteChar then
      (parseStringBody rest).map (fun p => (JsonVal.JStr p.1, p.2))
    else if c = dashChar then
      (parseNat rest).map (fun p => (JsonVal.JInt (-(p.1 : Int)), p.2))
    else
      (parseNat (c :: rest)).map (fun p => (JsonVal.JInt (p.1 : Int), p.2))

/-- Consume the colon separating a key from its value. -/
def expectColon : List Char → Option (List Char)
  | [] => none
  | c :: rest => if c = colonChar then some rest else none

/-- Consume the character after a member: a comma (more members follow) or
the closing brace (object ends). -/
def parseTail : List Char → Option (Bool × List Char)
  | [] => none
  | c :: rest =>
    if c = commaChar then some (true, rest)
    else if c = rbraceChar then some (false, rest)
    else none

/-- Parse the members of an object after the opening brace, consuming the
closing brace; fuel bounds the number of members. -/
def parseMembers : Nat → List Char → Option (List (List Char × JsonVal) × List Char)
  | 0, _ => none
  | _ + 1, [] => none
  | fuel + 1, c :: rest =>
    if c = quoteChar then
      (parseStringBody rest).bind (fun kp =>
        (expectColon kp.2).bind (fun r2 =>
          (parseValue r2).bind (fun vp =>
            (parseTail vp.2).bind (fun br =>
              if br.1 then
                (parseMembers fuel br.2).map (fun p => ((kp.1, vp.1) :: p.1, p.2))
              else some ([(kp.1, vp.1)], br.2)))))
    else none

/-- Parse a whole nonempty JSON object, requiring the input to be consumed
(the member count of an object is bounded by the length of what follows
its opening brace, which serves as fuel). -/
def parseJson : List Char → Option (List (List Char × JsonVal))
  | [] => none
  | c :: rest =>
    if c = lbraceChar then
      (parseMembers rest.length rest).bind (fun p =>
        match p.2 with
        | [] => some p.1
        | _ :: _ => none)
    else none

/-- Parse a JSON object from a `String`. -/
def parseJsonString (s : String) : Option (List (List Char × JsonVal)) :=
  parseJson s.data

/-- Whether the input does not begin with a decimal digit (so a digit run
ending right before it is maximal). -/
def headNotDigit : List Char → Bool
  | [] => true
  | c :: _ => !isDig c

/-! ### The device state and the firmware's operations -/

/-- The four module-level variables of the sketch, in declaration order. -/
structure ClampState where
  clampId : String
  clampCity : String
  batteryLevel : Int
  clampStatus : String
deriving DecidableEq

/-- The initial values the sketch assigns to its globals. -/
def initialState : ClampState :=
  { clampId := "PHYSICAL_CLAMP_001", clampCity := "Pune",
    batteryLevel := 95, clampStatus := "available" }

/-- A state with the sketch's initial status and a chosen identifier, city and
battery level. -/
def mkInit (id city : String) (b : Int) : ClampState :=
  { clampId := id, clampCity := city, batteryLevel := b,
    clampStatus := "available" }

/-- The battery-drain step at the top of `loop()`: while the battery is
positive it is drained by 1; otherwise it is pinned at 0 and the status is
set to `"low_battery"`. -/
def tick (s : ClampState) : ClampState :=
  if 0 < s.batteryLevel then { s with batteryLevel := s.batteryLevel - 1 }
  else { s with batteryLevel := 0, clampStatus := "low_battery" }

/-- The state after `n` battery-drain steps. -/
def tickN : Nat → ClampState → ClampState
  | 0, s => s
  | n + 1, s => tick (tickN n s)

/-- Flask-app host constant from the sketch. -/
def flaskAppHost : String := "192.168.1.8"

/-- Flask-app port constant from the sketch. -/
def flaskAppPort : Int := 5000

/-- Status-update endpoint path constant from the sketch. -/
def statusUpdateEndpoint : String := "/api/clamp_status_update"

/-- One HTTP request as assembled by `sendStatusUpdate`. -/
structure HttpRequest where
  method : String
  url : String
  headers : List (String × String)
  body : String
deriving DecidableEq

/-- The observable effects of one `sendStatusUpdate` call: the HTTP requests
it issued and the serial-log lines it printed. -/
structure SendTrace where
  requests : List HttpRequest
  serial : List String
deriving DecidableEq

/-- The `StaticJsonDocument` built by `sendStatusUpdate`, in insertion
order: the four fields of the record, copied verbatim. -/
def buildDoc (s : ClampState) : List (List Char × JsonVal) :=
  [("clamp_id".data, JsonVal.JStr s.clampId.data),
   ("status".data, JsonVal.JStr s.clampStatus.data),
   ("city".data, JsonVal.JStr s.clampCity.data),
   ("battery_level".data, JsonVal.JInt s.batteryLevel)]

/-- Diagnostic text for a transport error code (the HTTPClient library's
`errorToString`; its exact wording is irrelevant to the claims). -/
def errorToString (code : Int) : String := intToString code

/-- `sendStatusUpdate()`: when the link is up, build the target URL from the
configured constants, serialize the four fields, and issue one POST with a
`Content-Type: application/json` header through the abstract transport
`post` (which returns the response code and body); the outcome is only
logged. When the link is down, log a line and do nothing else. The four
globals are never assigned, so the state is returned unchanged. -/
def sendStatusUpdate (connected : Bool) (post : HttpRequest → Int × String)
    (s : ClampState) : ClampState × SendTrace :=
  if connected then
    let serverPath : String :=
      "http://" ++ flaskAppHost ++ ":" ++ intToString flaskAppPort
        ++ statusUpdateEndpoint
    let requestBody : String := serializeJson (buildDoc s)
    let req : HttpRequest :=
      { method := "POST", url := serverPath,
        headers := [("Content-Type", "application/json")],
        body := requestBody }
    let outcome := post req
    let tail : List String :=
      if 0 < outcome.1 then
        ["HTTP Response code: " ++ intToString outcome.1, outcome.2]
      else
        ["HTTP Error: " ++ errorToString outcome.1]
    (s, { requests := [req],
          serial := ["Sending status to: " ++ serverPath,
                     "Request Body: " ++ requestBody] ++ tail })
  else
    (s, { requests := [],
          serial := ["WiFi not connected. Cannot send status update."] })

/-- One iteration of `loop()`: drain the battery, then attempt the status
update (the trailing `delay(5000)` has no effect on the state or trace). -/
def loop (connected : Bool) (post : HttpRequest → Int × String)
    (s : ClampState) : ClampState × SendTrace :=
  sendStatusUpdate connected post (tick s)

/-- The state after `n` iterations of `loop()` from the initial state, with
the connectivity flag and transport outcome of each cycle chosen by the
environment. -/
def stateAfter (conns : Nat → Bool) (posts : Nat → HttpRequest → Int × String) :
    Nat → ClampState
  | 0 => initialState
  | n + 1 => (loop (conns n) (posts n) (stateAfter conns posts n)).1

/-- `connectToWiFi()`'s poll loop: `link i` tells whether the `i`-th check of
`WiFi.status()` reports `WL_CONNECTED`; each failed check is followed by
`delay(1000)`. The fuel bounds how many checks we observe; `some ds` means
the loop exited after performing the delays `ds`, `none` means it was still
polling. There is no error outcome. -/
def connectToWiFiAux (link : Nat → Bool) : Nat → Nat → Option (List Nat)
  | 0, _ => none
  | fuel + 1, i =>
    if link i then some []
    else
      match connectToWiFiAux link fuel (i + 1) with
      | none => none
      | some ds => some (1000 :: ds)

/-- `connectToWiFi()` observed for `fuel` polls, starting at the first check. -/
def connectToWiFi (link : Nat → Bool) (fuel : Nat) : Option (List Nat) :=
  connectToWiFiAux link fuel 0

/-! ### Closed form of the tick dynamics -/

/-- Closed form of `tickN`: from a nonnegative battery `b`, the first `b`
ticks drain one unit each and leave the status alone; every tick after that
pins the battery at 0 and the status at `"low_battery"`. -/
theorem tickN_closed (id ct st : String) (b : Int) (hb : 0 ≤ b) (n : Nat) :
    tickN n ⟨id, ct, b, st⟩ =
      if (n : Int) ≤ b then ⟨id, ct, b - n, st⟩
      else ⟨id, ct, 0, "low_battery"⟩ := by
  induction n with
  | zero =>
    rw [tickN]
    have h0 : ((0 : Nat) : Int) ≤ b := by exact_mod_cast hb
    rw [if_pos h0]
    simp
  | succ n ih =>
    rw [tickN, ih]
    by_cases h : (n : Int) ≤ b
    · rw [if_pos h]
      by_cases h2 : ((n : Int) + 1) ≤ b
      · have hpos : 0 < b - (n : Int) := by omega
        have h3 : ((n + 1 : Nat) : Int) ≤ b := by push_cast; omega
        rw [if_pos h3]
        simp only [tick]
        rw [if_pos hpos]
        simp only [ClampState.mk.injEq, true_and, and_true]
        omega
      · have hz : ¬ ((n + 1 : Nat) : Int) ≤ b := by push_cast; omega
        have hnp : ¬ 0 < b - (n : Int) := by omega
        rw [if_neg hz]
        simp only [tick]
        rw [if_neg hnp]
    · rw [if_neg h]
      have hz : ¬ ((n + 1 : Nat) : Int) ≤ b := by push_cast; omega
      rw [if_neg hz]
      simp [tick]

/-- `sendStatusUpdate` never assigns any of the four globals. -/
theorem sendStatusUpdate_fst (conn : Bool) (post : HttpRequest → Int × String)
    (s : ClampState) : (sendStatusUpdate conn post s).1 = s := by
  cases conn <;> simp [sendStatusUpdate]

/-- The state after `n` loop iterations is the state after `n` ticks,
whatever the connectivity and transport outcomes were. -/
theorem stateAfter_eq_tickN (conns : Nat → Bool)
    (posts : Nat → HttpRequest → Int × String) (n : Nat) :
    stateAfter conns posts n = tickN n initialState := by
  induction n with
  | zero => rfl
  | succ n ih => rw [stateAfter, tickN, ← ih, loop, sendStatusUpdate_fst]

/-! ### Round-trip of the serializer and the parser -/

/-- The character of a digit below 10 is a decimal digit. -/
theorem isDig_digitChar {d : Nat} (h : d < 10) : isDig (digitChar d) = true := by
  interval_cases d <;> decide

/-- Digit characters decode to the digit they encode. -/
theorem toVal_digitChar {d : Nat} (h : d < 10) : toVal (digitChar d) = d := by
  interval_cases d <;> decide

/-- A digit character is neither a quote nor a minus sign. -/
theorem isDig_ne_special {c : Char} (h : isDig c = true) :
    c ≠ quoteChar ∧ c ≠ dashChar := by
  constructor <;> intro he <;> rw [he] at h <;> exact absurd h (by decide)

/-- `parseDigits` does not consume a non-digit head. -/
theorem parseDigits_stop (cs : List Char) (acc : Nat) (h : headNotDigit cs = true) :
    parseDigits cs acc = (acc, cs) := by
  cases cs with
  | nil => rfl
  | cons c rest =>
    have hc : isDig c = false := by simpa [headNotDigit] using h
    rw [parseDigits, hc]
    simp

/-- `parseDigits` folds a maximal digit run into the accumulator. -/
theorem parseDigits_append (ds : List Char) : ∀ (rest : List Char) (acc : Nat),
    (∀ c ∈ ds, isDig c = true) → headNotDigit rest = true →
    parseDigits (ds ++ rest) acc = (ds.foldl digStep acc, rest) := by
  induction ds with
  | nil => intro rest acc _ hr; simpa using parseDigits_stop rest acc hr
  | cons c ds ih =>
    intro rest acc hall hr
    rw [List.cons_append, parseDigits, if_pos (hall c (List.mem_cons_self c ds))]
    rw [ih rest (digStep acc c) (fun x hx => hall x (List.mem_cons_of_mem c hx)) hr]
    rw [List.foldl_cons]

/-- Every character rendered by `natToCharsAux` is a decimal digit. -/
theorem natToCharsAux_all_dig : ∀ (fuel n : Nat), ∀ c ∈ natToCharsAux fuel n,
    isDig c = true := by
  intro fuel
  induction fuel with
  | zero => intro n c hc; simp [natToCharsAux] at hc
  | succ fuel ih =>
    intro n c hc
    rw [natToCharsAux] at hc
    by_cases h : n < 10
    · rw [if_pos h] at hc
      simp only [List.mem_singleton] at hc
      subst hc
      exact isDig_digitChar h
    · rw [if_neg h] at hc
      rcases List.mem_append.mp hc with h1 | h2
      · exact ih (n / 10) c h1
      · simp only [List.mem_singleton] at h2
        subst h2
        exact isDig_digitChar (Nat.mod_lt n (by norm_num))

/-- `natToCharsAux` renders at least one digit when given fuel. -/
theorem natToCharsAux_ne_nil (fuel n : Nat) (h : fuel ≠ 0) :
    natToCharsAux fuel n ≠ [] := by
  cases fuel with
  | zero => exact absurd rfl h
  | succ fuel =>
    rw [natToCharsAux]
    split_ifs <;> simp

/-- Folding the digit-accumulation step over the rendered digits of `n`
recovers `n` (shifted past the accumulator). -/
theorem foldl_natToCharsAux : ∀ (fuel n acc : Nat), n < fuel →
    (natToCharsAux fuel n).foldl digStep acc
      = acc * 10 ^ (natToCharsAux fuel n).length + n := by
  intro fuel
  induction fuel with
  | zero => intro n acc h; exact absurd h (Nat.not_lt_zero n)
  | succ fuel ih =>
    intro n acc h
    rw [natToCharsAux]
    by_cases h10 : n < 10
    · rw [if_pos h10]
      simp [digStep, toVal_digitChar h10]
    · rw [if_neg h10]
      have hlt : n / 10 < fuel := by
        have := Nat.div_lt_self (by omega : 0 < n) (by norm_num : (1 : Nat) < 10)
        omega
      rw [List.foldl_append, ih (n / 10) acc hlt]
      have hmod : n % 10 < 10 := Nat.mod_lt n (by norm_num)
      simp only [List.foldl_cons, List.foldl_nil, List.length_append,
        List.length_cons, List.length_nil, List.length_singleton]
      rw [digStep, toVal_digitChar hmod, pow_succ]
      have hsplit : (acc * 10 ^ (natToCharsAux fuel (n / 10)).length + n / 10) * 10 + n % 10
          = acc * (10 ^ (natToCharsAux fuel (n / 10)).length * 10) + (10 * (n / 10) + n % 10) := by
        ring
      rw [hsplit, Nat.div_add_mod]

/-- Parsing the decimal rendering of a natural number recovers it. -/
theorem parseNat_natToChars (n : Nat) (rest : List Char)
    (hr : headNotDigit rest = true) :
    parseNat (natToChars n ++ rest) = some (n, rest) := by
  have hne := natToCharsAux_ne_nil (n + 1) n (Nat.succ_ne_zero n)
  have hall := natToCharsAux_all_dig (n + 1) n
  have hv := foldl_natToCharsAux (n + 1) n 0 (Nat.lt_succ_self n)
  rw [natToChars]
  cases hcs : natToCharsAux (n + 1) n with
  | nil => exact absurd hcs hne
  | cons c ds =>
    rw [hcs] at hall hv
    rw [List.cons_append, parseNat, if_pos (hall c (List.mem_cons_self c ds))]
    rw [parseDigits_append ds rest (toVal c)
      (fun x hx => hall x (List.mem_cons_of_mem c hx)) hr]
    have hfold : (c :: ds).foldl digStep 0 = n := by
      rw [hv]; ring
    rw [List.foldl_cons] at hfold
    have h0 : digStep 0 c = toVal c := by rw [digStep]; ring
    rw [h0] at hfold
    rw [hfold]

/-- Parsing an escaped string body up to its closing quote recovers the
original characters and the remaining input, for every string. -/
theorem parseStrAux_escape : ∀ (s rest : List Char),
    parseStrAux false (escapeList s ++ quoteChar :: rest) = some (s, rest) := by
  intro s
  induction s with
  | nil => intro rest; rw [escapeList, List.nil_append, parseStrAux, if_pos rfl]
  | cons c cs ih =>
    intro rest
    rw [escapeList, List.append_assoc, escapeChar]
    by_cases h1 : c = quoteChar
    · subst h1
      rw [if_pos rfl, List.cons_append, List.cons_append, List.nil_append]
      rw [parseStrAux, if_neg (by decide), if_pos rfl, parseStrAux, ih rest,
        Option.map_some']
      rw [show unescapeChar quoteChar = quoteChar from by decide]
    · rw [if_neg h1]
      by_cases h2 : c = backslashChar
      · subst h2
        rw [if_pos rfl, List.cons_append, List.cons_append, List.nil_append]
        rw [parseStrAux, if_neg (by decide), if_pos rfl, parseStrAux, ih rest,
          Option.map_some']
        rw [show unescapeChar backslashChar = backslashChar from by decide]
      · rw [if_neg h2]
        by_cases h3 : c = Char.ofNat 8
        · subst h3
          rw [if_pos rfl, List.cons_append, List.cons_append, List.nil_append]
          rw [parseStrAux, if_neg (by decide), if_pos rfl, parseStrAux, ih rest,
            Option.map_some']
          rw [show unescapeChar 'b' = Char.ofNat 8 from by decide]
        · rw [if_neg h3]
          by_cases h4 : c = Char.ofNat 12
          · subst h4
            rw [if_pos rfl, List.cons_append, List.cons_append, List.nil_append]
            rw [parseStrAux, if_neg (by decide), if_pos rfl, parseStrAux, ih rest,
              Option.map_some']
            rw [show unescapeChar 'f' = Char.ofNat 12 from by decide]
          · rw [if_neg h4]
            by_cases h5 : c = Char.ofNat 10
            · subst h5
              rw [if_pos rfl, List.cons_append, List.cons_append, List.nil_append]
              rw [parseStrAux, if_neg (by decide), if_pos rfl, parseStrAux, ih rest,
                Option.map_some']
              rw [show unescapeChar 'n' = Char.ofNat 10 from by decide]
            · rw [if_neg h5]
              by_cases h6 : c = Char.ofNat 13
              · subst h6
                rw [if_pos rfl, List.cons_append, List.cons_append, List.nil_append]
                rw [parseStrAux, if_neg (by decide), if_pos rfl, parseStrAux, ih rest,
                  Option.map_some']
                rw [show unescapeChar 'r' = Char.ofNat 13 from by decide]
              · rw [if_neg h6]
                by_cases h7 : c = Char.ofNat 9
                · subst h7
                  rw [if_pos rfl, List.cons_append, List.cons_append, List.nil_append]
                  rw [parseStrAux, if_neg (by decide), if_pos rfl, parseStrAux, ih rest,
                    Option.map_some']
                  rw [show unescapeChar 't' = Char.ofNat 9 from by decide]
                · rw [if_neg h7, List.singleton_append]
                  rw [parseStrAux, if_neg h1, if_neg h2, ih rest, Option.map_some']

/-- The wrapper form of `parseStrAux_escape`. -/
theorem parseStringBody_escape (s rest : List Char) :
    parseStringBody (escapeList s ++ quoteChar :: rest) = some (s, rest) :=
  parseStrAux_escape s rest

/-- Parsing the rendering of a JSON value recovers it, provided the input
does not continue with a digit (as after a serialized object member). -/
theorem parseValue_serializeVal (v : JsonVal) (rest : List Char)
    (hr : headNotDigit rest = true) :
    parseValue (serializeVal v ++ rest) = some (v, rest) := by
  cases v with
  | JStr s =>
    rw [serializeVal, List.cons_append, List.append_assoc, List.singleton_append]
    rw [parseValue, if_pos rfl, parseStringBody_escape s rest, Option.map_some']
  | JInt i =>
    rw [serializeVal, intToChars]
    by_cases hneg : i < 0
    · rw [if_pos hneg, List.cons_append]
      rw [parseValue, if_neg (by decide), if_pos rfl]
      rw [parseNat_natToChars _ rest hr, Option.map_some']
      have hcast : (((-i).toNat : Nat) : Int) = -i := Int.toNat_of_nonneg (by omega)
      rw [hcast, neg_neg]
    · rw [if_neg hneg]
      have hne := natToCharsAux_ne_nil (i.toNat + 1) i.toNat (Nat.succ_ne_zero _)
      have hall := natToCharsAux_all_dig (i.toNat + 1) i.toNat
      rw [natToChars]
      cases hcs : natToCharsAux (i.toNat + 1) i.toNat with
      | nil => exact absurd hcs hne
      | cons c ds =>
        rw [hcs] at hall
        have hdig : isDig c = true := hall c (List.mem_cons_self c ds)
        obtain ⟨hq, hd⟩ := isDig_ne_special hdig
        rw [List.cons_append, parseValue, if_neg hq, if_neg hd]
        rw [← List.cons_append, ← hcs, ← natToChars]
        rw [parseNat_natToChars i.toNat rest hr, Option.map_some']
        have hcast : ((i.toNat : Nat) : Int) = i := Int.toNat_of_nonneg (by omega)
        rw [hcast]

/-- A member list never outgrows the length of its rendering plus one. -/
theorem length_le_serializeMembersBody : ∀ (ms : List (List Char × JsonVal)),
    ms.length ≤ (serializeMembersBody ms).length + 1 := by
  intro ms
  induction ms with
  | nil => simp
  | cons m ms ih =>
    cases ms with
    | nil =>
      rw [serializeMembersBody]
      simp only [List.length_singleton]
      omega
    | cons m2 ms2 =>
      rw [serializeMembersBody]
      · have hm : 1 ≤ (serializeMember m).length := by
          rw [serializeMember, List.length_cons]
          omega
        simp only [List.length_append, List.length_cons] at ih ⊢
        omega
      · exact fun hcon => List.noConfusion hcon

/-- Parsing the rendered members of a nonempty object (followed by the
closing brace) recovers exactly those members and consumes the input. -/
theorem parseMembers_serialize : ∀ (ms : List (List Char × JsonVal)) (fuel : Nat),
    ms ≠ [] → ms.length ≤ fuel →
    parseMembers fuel (serializeMembersBody ms ++ [rbraceChar]) = some (ms, []) := by
  intro ms
  induction ms with
  | nil => intro fuel h _; exact absurd rfl h
  | cons m ms ih =>
    intro fuel _ hfuel
    cases fuel with
    | zero => simp at hfuel
    | succ fuel =>
      cases ms with
      | nil =>
        rw [serializeMembersBody, serializeMember]
        simp only [List.cons_append, List.append_assoc]
        rw [parseMembers, if_pos rfl]
        rw [parseStringBody_escape m.1 (colonChar :: (serializeVal m.2 ++ [rbraceChar]))]
        rw [Option.some_bind, expectColon, if_pos rfl, Option.some_bind]
        rw [parseValue_serializeVal m.2 [rbraceChar] (by decide), Option.some_bind]
        rw [parseTail, if_neg (by decide), if_pos rfl, Option.some_bind]
        rfl
      | cons m2 ms2 =>
        have hne2 : m2 :: ms2 ≠ [] := List.cons_ne_nil m2 ms2
        have hlen2 : (m2 :: ms2).length ≤ fuel := by
          simp only [List.length_cons] at hfuel ⊢
          omega
        rw [serializeMembersBody]
        · rw [serializeMember]
          simp only [List.cons_append, List.append_assoc]
          rw [parseMembers, if_pos rfl]
          rw [parseStringBody_escape m.1
            (colonChar :: (serializeVal m.2 ++ commaChar ::
              (serializeMembersBody (m2 :: ms2) ++ [rbraceChar])))]
          rw [Option.some_bind, expectColon, if_pos rfl, Option.some_bind]
          rw [parseValue_serializeVal m.2
            (commaChar :: (serializeMembersBody (m2 :: ms2) ++ [rbraceChar]))
            (by rw [headNotDigit]; decide)]
          rw [Option.some_bind, parseTail, if_pos rfl, Option.some_bind]
          rw [if_pos rfl]
          rw [ih fuel hne2 hlen2, Option.map_some']
        · exact fun hcon => List.noConfusion hcon

/-- Parsing the rendering of a nonempty object document recovers it. -/
theorem parseJson_serializeObj (ms : List (List Char × JsonVal)) (h : ms ≠ []) :
    parseJson (serializeObj ms) = some ms := by
  rw [serializeObj, List.cons_append, parseJson, if_pos rfl]
  have hlen : ms.length ≤ (serializeMembersBody ms ++ [rbraceChar]).length := by
    have := length_le_serializeMembersBody ms
    simp only [List.length_append, List.length_singleton]
    omega
  rw [parseMembers_serialize ms _ h hlen, Option.some_bind]

/-! ### Claim theorems (state machine) -/

/-- C1, counterexample: the biconditional "status is low_battery iff
battery_level is 0" fails on the code at the reachable state after 95 ticks
from the initial state: there the battery is 0 but the status still reads
"available", because `loop()` only assigns `"low_battery"` on the tick
after the battery has reached 0. -/
theorem c1_counterexample :
    (tickN 95 initialState).batteryLevel = 0 ∧
    (tickN 95 initialState).clampStatus ≠ "low_battery" := by decide

/-- C1, amended: in every state reachable by ticks from the initial state,
the status is "low_battery" iff the battery is 0 and at least 96 ticks have
occurred — i.e. iff the battery was already 0 at the start of some earlier
tick. The status therefore lags battery exhaustion by exactly one tick. -/
theorem c1_amended (n : Nat) :
    (tickN n initialState).clampStatus = "low_battery" ↔
      ((tickN n initialState).batteryLevel = 0 ∧ 96 ≤ n) := by
  have hcl := tickN_closed "PHYSICAL_CLAMP_001" "Pune" "available" 95 (by norm_num) n
  rw [show initialState =
      (⟨"PHYSICAL_CLAMP_001", "Pune", 95, "available"⟩ : ClampState) from rfl, hcl]
  by_cases hn : (n : Int) ≤ 95
  · rw [if_pos hn]
    dsimp only
    constructor
    · intro hst; exact absurd hst (by decide)
    · rintro ⟨hb, hn96⟩; exfalso; omega
  · rw [if_neg hn]
    dsimp only
    constructor
    · intro _; exact ⟨rfl, by omega⟩
    · intro _; rfl

/-- C1, instance of the amended claim at a concrete tick count. -/
theorem c1_witness :
    (tickN 96 initialState).clampStatus = "low_battery" :=
  (c1_amended 96).mpr (by decide)

/-- C2, counterexample: from the claim's own scenario (battery 2, status
"available"), after exactly 2 ticks the battery is 0 but the status is
still "available", not "low_battery" as the claim states. -/
theorem c2_counterexample :
    (tickN 2 (mkInit "C1" "X" 2)).batteryLevel = 0 ∧
    (tickN 2 (mkInit "C1" "X" 2)).clampStatus ≠ "low_battery" := by decide

/-- C2, amended: for every initial battery level `b` in [0,100] with status
"available", after `b` ticks the battery is 0 but the status is still
"available"; from tick `b + 1` onward the battery stays 0 and the status is
"low_battery". In the scenario (battery 2): after 2 ticks battery 0 /
status "available", after the 3rd tick (and any later one) battery 0 /
status "low_battery". -/
theorem c2_amended (id city : String) (b : Int) (k : Nat)
    (hb0 : 0 ≤ b) (hb1 : b ≤ 100) (hk : b.toNat + 1 ≤ k) :
    (tickN b.toNat (mkInit id city b)).batteryLevel = 0 ∧
    (tickN b.toNat (mkInit id city b)).clampStatus = "available" ∧
    (tickN k (mkInit id city b)).batteryLevel = 0 ∧
    (tickN k (mkInit id city b)).clampStatus = "low_battery" := by
  have h1 := tickN_closed id city "available" b hb0 b.toNat
  have h2 := tickN_closed id city "available" b hb0 k
  simp only [mkInit]
  rw [h1, h2]
  have ht : ((b.toNat : Nat) : Int) ≤ b := by omega
  rw [if_pos ht]
  have hk2 : ¬ ((k : Nat) : Int) ≤ b := by omega
  rw [if_neg hk2]
  dsimp only
  exact ⟨by omega, rfl, rfl, rfl⟩

/-- C2, witness: the amended claim instantiated at the scenario (battery 2,
clamp "C1", city "X"), with the stability part checked at the 3rd tick. -/
theorem c2_witness :
    ((0 : Int) ≤ 2 ∧ (2 : Int) ≤ 100 ∧ (2 : Int).toNat + 1 ≤ 3) ∧
    ((tickN (2 : Int).toNat (mkInit "C1" "X" 2)).batteryLevel = 0 ∧
     (tickN (2 : Int).toNat (mkInit "C1" "X" 2)).clampStatus = "available" ∧
     (tickN 3 (mkInit "C1" "X" 2)).batteryLevel = 0 ∧
     (tickN 3 (mkInit "C1" "X" 2)).clampStatus = "low_battery") :=
  ⟨⟨by decide, by decide, by decide⟩,
   c2_amended "C1" "X" 2 3 (by decide) (by decide) (by decide)⟩

/-- C3: from any initial battery level in [0,100] (any status), the battery
after any number of ticks is never negative and never exceeds the initial
level, and each tick leaves it less than or equal to its previous value. -/
theorem c3_battery_monotone (id city st : String) (b : Int) (n : Nat)
    (hb0 : 0 ≤ b) (hb1 : b ≤ 100) :
    0 ≤ (tickN n ⟨id, city, b, st⟩).batteryLevel ∧
    (tickN n ⟨id, city, b, st⟩).batteryLevel ≤ b ∧
    (tickN (n + 1) ⟨id, city, b, st⟩).batteryLevel ≤
      (tickN n ⟨id, city, b, st⟩).batteryLevel := by
  have h1 := tickN_closed id city st b hb0 n
  have h2 := tickN_closed id city st b hb0 (n + 1)
  rw [h1, h2]
  split_ifs <;> dsimp only <;> exact ⟨by omega, by omega, by omega⟩

/-- C3, witness: the invariant instantiated at the sketch's initial state
and 3 ticks. -/
theorem c3_witness :
    ((0 : Int) ≤ 95 ∧ (95 : Int) ≤ 100) ∧
    (0 ≤ (tickN 3 (⟨"PHYSICAL_CLAMP_001", "Pune", 95, "available"⟩ : ClampState)).batteryLevel ∧
     (tickN 3 (⟨"PHYSICAL_CLAMP_001", "Pune", 95, "available"⟩ : ClampState)).batteryLevel ≤ 95 ∧
     (tickN 4 (⟨"PHYSICAL_CLAMP_001", "Pune", 95, "available"⟩ : ClampState)).batteryLevel ≤
       (tickN 3 (⟨"PHYSICAL_CLAMP_001", "Pune", 95, "available"⟩ : ClampState)).batteryLevel) :=
  ⟨⟨by decide, by decide⟩,
   c3_battery_monotone "PHYSICAL_CLAMP_001" "Pune" "available" 95 3 (by decide) (by decide)⟩

/-- C4: for every state of the record, the document built before sending
consists of exactly the four keys clamp_id, status, city, battery_level
with the record's current values copied verbatim (strings as JSON strings,
battery as a JSON integer), and parsing the serialized payload string back
recovers exactly that document — the round trip is lossless. -/
theorem c4_payload_roundtrip (s : ClampState) :
    buildDoc s =
      [("clamp_id".data, JsonVal.JStr s.clampId.data),
       ("status".data, JsonVal.JStr s.clampStatus.data),
       ("city".data, JsonVal.JStr s.clampCity.data),
       ("battery_level".data, JsonVal.JInt s.batteryLevel)] ∧
    parseJsonString (serializeJson (buildDoc s)) = some (buildDoc s) := by
  refine ⟨rfl, ?_⟩
  rw [serializeJson, parseJsonString]
  rw [show (String.mk (serializeObj (buildDoc s))).data = serializeObj (buildDoc s) from rfl]
  exact parseJson_serializeObj (buildDoc s)
    (by rw [buildDoc]; exact fun hcon => List.noConfusion hcon)

/-- C5: a `sendStatusUpdate` call while the link is down issues no HTTP
request and leaves every field of the record unchanged. -/
theorem c5_offline_noop (post : HttpRequest → Int × String) (s : ClampState) :
    (sendStatusUpdate false post s).1 = s ∧
    (sendStatusUpdate false post s).2.requests = [] := by
  simp [sendStatusUpdate]

/-- C6: the send outcome never influences the state: one loop iteration
always ends in exactly `tick` of the previous state, whatever the transport
returns (including an HTTP 500); two transports with different outcomes
produce the same next state and the same issued requests (only the serial
log can differ); and the process always proceeds to the next cycle, the
state after `n + 1` cycles being the tick of the state after `n` cycles. -/
theorem c6_outcome_isolated :
    (∀ (conn : Bool) (post : HttpRequest → Int × String) (s : ClampState),
        (loop conn post s).1 = tick s) ∧
    (∀ (conn : Bool) (p q : HttpRequest → Int × String) (s : ClampState),
        (loop conn p s).1 = (loop conn q s).1 ∧
        (loop conn p s).2.requests = (loop conn q s).2.requests) ∧
    (∀ (rbody : String) (s : ClampState),
        (loop true (fun _ => (500, rbody)) s).1 = tick s) ∧
    (∀ (conns : Nat → Bool) (posts : Nat → HttpRequest → Int × String) (n : Nat),
        stateAfter conns posts (n + 1) = tick (stateAfter conns posts n)) := by
  refine ⟨?_, ?_, ?_, ?_⟩
  · intro conn post s; rw [loop, sendStatusUpdate_fst]
  · intro conn p q s
    refine ⟨?_, ?_⟩
    · rw [loop, loop, sendStatusUpdate_fst, sendStatusUpdate_fst]
    · cases conn <;> simp [loop, sendStatusUpdate]
  · intro rbody s; rw [loop, sendStatusUpdate_fst]
  · intro conns posts n; rw [stateAfter, loop, sendStatusUpdate_fst]

/-- C7: with the link up every cycle (transport returning 200), after 95
loop iterations the battery is 0 while the status still reads "available";
the payload POSTed on that 95th cycle serializes battery 0 with status
"available"; the status first becomes "low_battery" on the 96th iteration,
reading "available" on every earlier one. -/
theorem c7_exhausted_but_available :
    (stateAfter (fun _ => true) (fun _ _ => (200, "")) 95).batteryLevel = 0 ∧
    (stateAfter (fun _ => true) (fun _ _ => (200, "")) 95).clampStatus = "available" ∧
    ((loop true (fun _ => (200, ""))
        (stateAfter (fun _ => true) (fun _ _ => (200, "")) 94)).2.requests.map
          HttpRequest.body)
      = [serializeJson (buildDoc
          (⟨"PHYSICAL_CLAMP_001", "Pune", 0, "available"⟩ : ClampState))] ∧
    (stateAfter (fun _ => true) (fun _ _ => (200, "")) 96).clampStatus = "low_battery" ∧
    (∀ k : Fin 96,
      (stateAfter (fun _ => true) (fun _ _ => (200, "")) k.val).clampStatus
        = "available") := by
  have hs : ∀ n, stateAfter (fun _ => true) (fun _ _ => (200, "")) n
      = tickN n initialState := fun n => stateAfter_eq_tickN _ _ n
  refine ⟨?_, ?_, ?_, ?_, ?_⟩
  · rw [hs 95]; decide
  · rw [hs 95]; decide
  · rw [hs 94, loop]
    have ht : tick (tickN 94 initialState)
        = (⟨"PHYSICAL_CLAMP_001", "Pune", 0, "available"⟩ : ClampState) := by decide
    rw [ht]
    simp [sendStatusUpdate]
  · rw [hs 96]; decide
  · intro k
    rw [hs k.val]
    have hcl := tickN_closed "PHYSICAL_CLAMP_001" "Pune" "available" 95 (by norm_num) k.val
    rw [show initialState =
        (⟨"PHYSICAL_CLAMP_001", "Pune", 95, "available"⟩ : ClampState) from rfl, hcl]
    have hk := k.isLt
    rw [if_pos (by omega : ((k.val : Nat) : Int) ≤ 95)]

/-- C8: the clamp identifier and city are immutable: `tick` never writes
them, `sendStatusUpdate` never writes them, and after any number of loop
iterations under any environment they still hold their startup values. -/
theorem c8_id_city_immutable :
    (∀ s : ClampState,
        (tick s).clampId = s.clampId ∧ (tick s).clampCity = s.clampCity) ∧
    (∀ (conn : Bool) (post : HttpRequest → Int × String) (s : ClampState),
        (sendStatusUpdate conn post s).1.clampId = s.clampId ∧
        (sendStatusUpdate conn post s).1.clampCity = s.clampCity) ∧
    (∀ (conns : Nat → Bool) (posts : Nat → HttpRequest → Int × String) (n : Nat),
        (stateAfter conns posts n).clampId = "PHYSICAL_CLAMP_001" ∧
        (stateAfter conns posts n).clampCity = "Pune") := by
  refine ⟨?_, ?_, ?_⟩
  · intro s; rw [tick]; split_ifs <;> exact ⟨rfl, rfl⟩
  · intro conn post s; rw [sendStatusUpdate_fst]; exact ⟨rfl, rfl⟩
  · intro conns posts n
    rw [stateAfter_eq_tickN]
    have hcl := tickN_closed "PHYSICAL_CLAMP_001" "Pune" "available" 95 (by norm_num) n
    rw [show initialState =
        (⟨"PHYSICAL_CLAMP_001", "Pune", 95, "available"⟩ : ClampState) from rfl, hcl]
    split_ifs <;> exact ⟨rfl, rfl⟩

/-- C9: whenever the link is up, `sendStatusUpdate` issues exactly one
request: a POST to the URL assembled from the configured host, port and
path — precisely "http://192.168.1.8:5000/api/clamp_status_update" — with
the single header `Content-Type: application/json` and the serialized
document as body. -/
theorem c9_request_shape (post : HttpRequest → Int × String) (s : ClampState) :
    (sendStatusUpdate true post s).2.requests =
      [{ method := "POST",
         url := "http://192.168.1.8:5000/api/clamp_status_update",
         headers := [("Content-Type", "application/json")],
         body := serializeJson (buildDoc s) }] := by
  have hurl : "http://" ++ flaskAppHost ++ ":" ++ intToString flaskAppPort
      ++ statusUpdateEndpoint = "http://192.168.1.8:5000/api/clamp_status_update" := by
    decide
  simp [sendStatusUpdate, hurl]

/-- Helper for C10: a successful poll observation yields a witness that the
link was eventually up, and every delay it performed was 1000 ms. -/
theorem connectToWiFiAux_some_imp (link : Nat → Bool) :
    ∀ (fuel i : Nat) (ds : List Nat), connectToWiFiAux link fuel i = some ds →
      (∃ n, link n = true) ∧ ds = List.replicate ds.length 1000 := by
  intro fuel
  induction fuel with
  | zero => intro i ds h; simp [connectToWiFiAux] at h
  | succ fuel ih =>
    intro i ds h
    rw [connectToWiFiAux] at h
    by_cases hl : link i = true
    · rw [if_pos hl] at h
      cases h
      exact ⟨⟨i, hl⟩, rfl⟩
    · rw [if_neg hl] at h
      cases hrec : connectToWiFiAux link fuel (i + 1) with
      | none => rw [hrec] at h; cases h
      | some ds' =>
        rw [hrec] at h
        cases h
        obtain ⟨hex, hrep⟩ := ih (i + 1) ds' hrec
        refine ⟨hex, ?_⟩
        rw [List.length_cons, List.replicate_succ]
        exact congrArg (1000 :: ·) hrep

/-- Helper for C10: if the link is up at some poll, the loop returns once
given enough fuel. -/
theorem connectToWiFiAux_terminates (link : Nat → Bool) :
    ∀ (n i : Nat), link (i + n) = true →
      ∃ ds, connectToWiFiAux link (n + 1) i = some ds := by
  intro n
  induction n with
  | zero => intro i h; exact ⟨[], by rw [connectToWiFiAux, if_pos (by simpa using h)]⟩
  | succ n ih =>
    intro i h
    by_cases hl : link i = true
    · exact ⟨[], by rw [connectToWiFiAux, if_pos hl]⟩
    · obtain ⟨ds, hds⟩ := ih (i + 1) (by rw [show i + 1 + n = i + (n + 1) from by omega]; exact h)
      exact ⟨1000 :: ds, by rw [connectToWiFiAux, if_neg hl, hds]⟩

/-- C10: `connectToWiFi` returns normally (within some observation fuel) iff
the link eventually reports the connected state; there is no error outcome
in its result type; and every wait it performs between polls is the fixed
1000 ms interval. -/
theorem c10_connect_blocks_until_up (link : Nat → Bool) :
    ((∃ fuel ds, connectToWiFi link fuel = some ds) ↔ (∃ n, link n = true)) ∧
    (∀ (fuel : Nat) (ds : List Nat), connectToWiFi link fuel = some ds →
        ds = List.replicate ds.length 1000) := by
  constructor
  · constructor
    · rintro ⟨fuel, ds, h⟩
      exact (connectToWiFiAux_some_imp link fuel 0 ds h).1
    · rintro ⟨n, hn⟩
      obtain ⟨ds, hds⟩ := connectToWiFiAux_terminates link n 0 (by simpa using hn)
      exact ⟨n + 1, ds, hds⟩
  · intro fuel ds h
    exact (connectToWiFiAux_some_imp link fuel 0 ds h).2

/-- C10, witness: a link that comes up on the third poll makes the loop
return after two fixed 1000 ms delays. -/
theorem c10_witness :
    connectToWiFi (fun n => decide (2 ≤ n)) 3 = some [1000, 1000] ∧
    ([1000, 1000] : List Nat)
      = List.replicate ([1000, 1000] : List Nat).length 1000 :=
  ⟨by decide,
   (c10_connect_blocks_until_up (fun n => decide (2 ≤ n))).2 3 [1000, 1000] (by decide)⟩

end SmartClamp
